import Mathlib

/-!
Shallow embedding of `nomad/deploymentwatcher/deployment_watcher.go`.

The deployment watcher observes the allocations of a single deployment and
reacts by creating scheduler evaluations, failing the deployment, rolling back
to a stable job version, and serving pause/promote/health RPCs.  External
effects (blocking store reads, store writes, the rate limiter) are passed in
as explicit oracle values, so every function here is a pure translation of the
corresponding Go function.  Machine integers (`uint64` indexes) are modelled
as `Nat`; Go `nil` pointers as `Option`; Go `error` results as `Except`.
A dereference of a `nil` pointer — which in Go is a runtime panic — is made
explicit as a distinguished outcome rather than being silently totalised.
-/

namespace DeploymentWatcher

/-- Errors returned by store reads, store writes and the rate limiter.
`canceled` models Go's `context.Canceled`; `failure` models any other error. -/
inductive GoErr where
  | canceled
  | failure (msg : String)
  deriving DecidableEq, Repr

/-- Modelled from the spec: `structs.UpdateStrategy` (package `nomad/structs`,
not under src/) — a task group's update policy carrying an `AutoRevert` flag. -/
structure UpdateStrategy where
  AutoRevert : Bool
  deriving DecidableEq, Repr

/-- Modelled from the spec: `structs.TaskGroup` (not under src/) — a named task
group with an optional update policy. -/
structure TaskGroup where
  Name : String
  Update : Option UpdateStrategy
  deriving DecidableEq, Repr

/-- Modelled from the spec: `structs.Job` (not under src/) — identity, version
number, stability flag, priority, type, and the ordered list of task groups. -/
structure Job where
  ID : String
  Version : Nat
  Stable : Bool
  Priority : Int
  Typ : String
  TaskGroups : List TaskGroup
  deriving DecidableEq, Repr

/-- Modelled from the spec: `structs.Deployment` (not under src/) — the watcher
only reads the deployment's own identity and its owning job's identity. -/
structure Deployment where
  ID : String
  JobID : String
  deriving DecidableEq, Repr

/-- Modelled from the spec: `structs.AllocDeploymentStatus` (not under src/) —
a health flag (healthy / unhealthy / unset, i.e. Go `*bool`) and the modify
index of the last deployment-status change. -/
structure AllocDeploymentStatus where
  Healthy : Option Bool
  ModifyIndex : Nat
  deriving DecidableEq, Repr

/-- Modelled from the spec: `structs.AllocDeploymentStatus.IsUnhealthy`
(not under src/) — true exactly when the health flag is set and false. -/
def IsUnhealthy (s : AllocDeploymentStatus) : Bool :=
  s.Healthy = some false

/-- Modelled from the spec: `structs.AllocListStub` (not under src/) — an
allocation stub: identity, owning task-group name, optional deployment
status. -/
structure AllocListStub where
  ID : String
  TaskGroup : String
  DeploymentStatus : Option AllocDeploymentStatus
  deriving DecidableEq, Repr

/-- Modelled from the spec: `structs.Evaluation` (not under src/), restricted
to the fields `getEval` fills in. -/
structure Evaluation where
  ID : String
  Priority : Int
  Typ : String
  TriggeredBy : String
  JobID : String
  DeploymentID : String
  Status : String
  deriving DecidableEq, Repr

/-- Modelled from the spec: `structs.DeploymentStatusUpdate` (not under
src/). -/
structure DeploymentStatusUpdate where
  DeploymentID : String
  Status : String
  StatusDescription : String
  deriving DecidableEq, Repr

/-- Modelled from the spec: `structs.DeploymentUpdateResponse` (not under
src/). -/
structure DeploymentUpdateResponse where
  EvalID : String
  EvalCreateIndex : Nat
  DeploymentModifyIndex : Nat
  deriving DecidableEq, Repr

/-- Modelled from the spec: `structs.AllocListResponse` (not under src/) — the
allocations plus the store's current index. -/
structure AllocListResponse where
  Allocations : List AllocListStub
  Index : Nat
  deriving DecidableEq, Repr

/-- Modelled from the spec: one entry of `structs.JobEvaluationsResponse`
(not under src/) — the two index fields `latestEvalIndex` reads. -/
structure EvalInfo where
  SnapshotIndex : Nat
  CreateIndex : Nat
  deriving DecidableEq, Repr

/-- Modelled from the spec: `structs.JobEvaluationsResponse` (not under src/) —
evaluations ordered newest-first, plus the store's current index. -/
structure JobEvaluationsResponse where
  Evaluations : List EvalInfo
  Index : Nat
  deriving DecidableEq, Repr

/-- Modelled from the spec: the status constant `structs.DeploymentStatusFailed`
(not under src/). -/
def DeploymentStatusFailed : String := "failed"

/-- Modelled from the spec: `structs.DeploymentStatusPaused` (not under src/). -/
def DeploymentStatusPaused : String := "paused"

/-- Modelled from the spec: `structs.DeploymentStatusRunning` (not under src/). -/
def DeploymentStatusRunning : String := "running"

/-- Modelled from the spec: the base failure description
`structs.DeploymentStatusDescriptionFailedAllocations` (not under src/). -/
def DeploymentStatusDescriptionFailedAllocations : String :=
  "Failed due to unhealthy allocations"

/-- Modelled from the spec: `structs.DeploymentStatusDescriptionPaused`
(not under src/). -/
def DeploymentStatusDescriptionPaused : String := "Deployment is paused"

/-- Modelled from the spec: `structs.DeploymentStatusDescriptionRunning`
(not under src/). -/
def DeploymentStatusDescriptionRunning : String := "Deployment is running"

/-- Modelled from the spec: `structs.EvalTriggerRollingUpdate` (not under
src/). -/
def EvalTriggerRollingUpdate : String := "rolling-update"

/-- Modelled from the spec: `structs.EvalStatusPending` (not under src/). -/
def EvalStatusPending : String := "pending"

/-- Modelled from the spec: `structs.GenerateUUID` (not under src/) returns a
fresh unique identifier string for a new evaluation; per the spec an
evaluation has an "identity (fresh unique id)".  Modelled as a function of a
generation counter; the result is never the empty string. -/
def GenerateUUID (n : Nat) : String := "uuid-" ++ toString n

/-- The watcher state relevant to the pure logic: the deployment and job
snapshots and the derived autorevert map (`deploymentWatcher` struct,
`deployment_watcher.go` lines 44-74; the mutable batch flag is modelled
separately as `BatchState`). -/
structure Watcher where
  d : Deployment
  j : Job
  autorevert : String → Bool

/-- The autorevert map derived at construction (`newDeploymentWatcher`,
lines 100-106): one entry per task group, true exactly when the group has an
update policy with `AutoRevert` set; a Go map lookup of an absent key yields
`false`, and a later duplicate group name overwrites an earlier one. -/
def buildAutorevert (tgs : List TaskGroup) : String → Bool :=
  tgs.foldl
    (fun m tg => fun n =>
      if n = tg.Name then
        match tg.Update with
        | some u => u.AutoRevert
        | none => false
      else m n)
    (fun _ => false)

/-- Watcher construction (`newDeploymentWatcher`, lines 78-110), restricted to
the pure state: stores the snapshots and derives the autorevert map. -/
def newDeploymentWatcher (d : Deployment) (j : Job) : Watcher :=
  { d := d, j := j, autorevert := buildAutorevert j.TaskGroups }

/-- `getEval` (lines 374-384): a fresh pending evaluation for the deployment,
with priority and type copied from the job. -/
def getEval (w : Watcher) (uuid : String) : Evaluation :=
  { ID := uuid
    Priority := w.j.Priority
    Typ := w.j.Typ
    TriggeredBy := EvalTriggerRollingUpdate
    JobID := w.j.ID
    DeploymentID := w.d.ID
    Status := EvalStatusPending }

/-- `getDeploymentStatusUpdate` (lines 387-393). -/
def getDeploymentStatusUpdate (w : Watcher) (status desc : String) :
    DeploymentStatusUpdate :=
  { DeploymentID := w.d.ID, Status := status, StatusDescription := desc }

/-- The rollback description built by `fmt.Sprintf("%s - rolling back to job
version %d", desc, j.Version)` (lines 154 and 306). -/
def rollbackDesc (base : String) (version : Nat) : String :=
  base ++ " - rolling back to job version " ++ toString version

/-- `latestStableJob` (lines 325-341): fetch the job's version history and
return the first version flagged stable, or `none` when no stable version
exists (the Go function returns a possibly-nil pointer with no error).  The
`GetJobVersions` read result is passed in as an oracle. -/
def latestStableJob (versionsRead : Except GoErr (List Job)) :
    Except GoErr (Option Job) :=
  match versionsRead with
  | Except.error e => Except.error e
  | Except.ok vs => Except.ok (vs.find? (fun j => j.Stable))

/-- The pure index selection of `latestEvalIndex` (lines 437-447): with no
evaluations, the store's current index; otherwise the newest evaluation's
snapshot index if non-zero, else its create index. -/
def latestEvalValue (r : JobEvaluationsResponse) : Nat :=
  match r.Evaluations with
  | [] => r.Index
  | e :: _ => if e.SnapshotIndex ≠ 0 then e.SnapshotIndex else e.CreateIndex

/-- `latestEvalIndex` (lines 423-448).  Go returns the pair `(uint64, error)`,
and on any error the returned index is `0`; this is modelled literally as a
`Nat × Option GoErr` pair because the caller in `watch` assigns the index
component even on error.  `wait` is the rate limiter result (`none` on
success); `evalsRead` the `Evaluations` store read. -/
def latestEvalIndex (wait : Option GoErr)
    (evalsRead : Except GoErr JobEvaluationsResponse) : Nat × Option GoErr :=
  match wait with
  | some e => (0, some e)
  | none =>
    match evalsRead with
    | Except.error e => (0, some e)
    | Except.ok r => (latestEvalValue r, none)

/-- One iteration of `getAllocs`'s local loop body (lines 407-415) can fail in
the rate-limiter wait, fail in the `Allocations` query, or succeed with a
fresh response; the sequence of iteration outcomes is the oracle. -/
inductive FetchStep where
  | waitErr (e : GoErr)
  | queryErr (e : GoErr)
  | queryOk (r : AllocListResponse)
  deriving DecidableEq, Repr

/-- The loop of `getAllocs` (lines 407-415): `for resp.Index <= index { wait;
query }`.  `resp` starts as the Go zero value and is overwritten by each
successful query; the loop exits successfully only once `resp.Index` strictly
exceeds the requested minimum index.  When the oracle runs out of steps the
loop is still running, modelled as `none`. -/
def getAllocsLoop (index : Nat) (steps : List FetchStep)
    (resp : AllocListResponse) : Option (Except GoErr (List AllocListStub)) :=
  if index < resp.Index then some (Except.ok resp.Allocations)
  else
    match steps with
    | [] => none
    | FetchStep.waitErr e :: _ => some (Except.error e)
    | FetchStep.queryErr e :: _ => some (Except.error e)
    | FetchStep.queryOk r :: rest => getAllocsLoop index rest r

/-- `getAllocs` (lines 397-418): run the local loop from the zero-valued
response. -/
def getAllocs (index : Nat) (steps : List FetchStep) :
    Option (Except GoErr (List AllocListStub)) :=
  getAllocsLoop index steps { Allocations := [], Index := 0 }

/-- Modelled from the spec: `structs.DeploymentAllocHealthRequest` (not under
src/) — the deployment id plus the healthy and unhealthy allocation id
lists. -/
structure DeploymentAllocHealthRequest where
  DeploymentID : String
  HealthyAllocationIDs : List String
  UnhealthyAllocationIDs : List String
  deriving DecidableEq, Repr

/-- Modelled from the spec: `structs.ApplyDeploymentAllocHealthRequest` (not
under src/) — the request plus the evaluation, optional status update and
optional rollback job the watcher attaches (lines 162-167). -/
structure ApplyDeploymentAllocHealthRequest where
  request : DeploymentAllocHealthRequest
  Eval : Evaluation
  DeploymentUpdate : Option DeploymentStatusUpdate
  Job : Option Job
  deriving DecidableEq, Repr

/-- How `SetAllocHealth` can fail: a Go error returned to the caller, or a
runtime panic from dereferencing the nil stable-job pointer. -/
inductive SAHFail where
  | goError (e : GoErr)
  | nilPanic
  deriving DecidableEq, Repr

/-- The scan of `SetAllocHealth` over the re-fetched allocations (lines
136-156): skip allocations not named unhealthy in the request, skip those
whose task group lacks autorevert; at the first remaining allocation resolve
the latest stable job, extend the description with its version and stop.  The
Go code dereferences `j.Version` without a nil check, so a history with no
stable version is a panic (`SAHFail.nilPanic`); a failed version read is
returned to the caller.  Yields the description and the rollback job. -/
def sahScan (ar : String → Bool) (unhealthy : List String)
    (versionsRead : Except GoErr (List Job)) :
    List AllocListStub → Except SAHFail (String × Option Job)
  | [] => Except.ok (DeploymentStatusDescriptionFailedAllocations, none)
  | a :: rest =>
    if !(unhealthy.contains a.ID) then sahScan ar unhealthy versionsRead rest
    else if !(ar a.TaskGroup) then sahScan ar unhealthy versionsRead rest
    else
      match latestStableJob versionsRead with
      | Except.error e => Except.error (SAHFail.goError e)
      | Except.ok none => Except.error SAHFail.nilPanic
      | Except.ok (some j) =>
        Except.ok
          (rollbackDesc DeploymentStatusDescriptionFailedAllocations j.Version,
           some j)

/-- The request-building part of `SetAllocHealth` (lines 112-167): with no
unhealthy ids, no status update and no job; otherwise re-fetch the
deployment's allocations (`allocsRead` oracle; a read error is returned), run
the scan, and attach a `failed` status update with the resulting description
and rollback job. -/
def setAllocHealthAreq (w : Watcher) (uuid : String)
    (req : DeploymentAllocHealthRequest)
    (allocsRead : Except GoErr (List AllocListStub))
    (versionsRead : Except GoErr (List Job)) :
    Except SAHFail ApplyDeploymentAllocHealthRequest :=
  if req.UnhealthyAllocationIDs = [] then
    Except.ok
      { request := req, Eval := getEval w uuid, DeploymentUpdate := none,
        Job := none }
  else
    match allocsRead with
    | Except.error e => Except.error (SAHFail.goError e)
    | Except.ok allocs =>
      match sahScan w.autorevert req.UnhealthyAllocationIDs versionsRead allocs with
      | Except.error e => Except.error e
      | Except.ok (desc, j) =>
        Except.ok
          { request := req
            Eval := getEval w uuid
            DeploymentUpdate :=
              some (getDeploymentStatusUpdate w DeploymentStatusFailed desc)
            Job := j }

/-- `SetAllocHealth` (lines 112-179): build the apply request, commit it
(`writeResult` oracle), and build the response from the write index. -/
def SetAllocHealth (w : Watcher) (uuid : String)
    (req : DeploymentAllocHealthRequest)
    (allocsRead : Except GoErr (List AllocListStub))
    (versionsRead : Except GoErr (List Job))
    (writeResult : Except GoErr Nat) :
    Except SAHFail DeploymentUpdateResponse :=
  match setAllocHealthAreq w uuid req allocsRead versionsRead with
  | Except.error e => Except.error e
  | Except.ok areq =>
    match writeResult with
    | Except.error e => Except.error (SAHFail.goError e)
    | Except.ok index =>
      Except.ok
        { EvalID := areq.Eval.ID
          EvalCreateIndex := index
          DeploymentModifyIndex := index }

/-- Modelled from the spec: `structs.DeploymentPauseRequest` (not under
src/). -/
structure DeploymentPauseRequest where
  DeploymentID : String
  Pause : Bool
  deriving DecidableEq, Repr

/-- What `PauseDeployment` commits and answers: the status update and optional
evaluation handed to `upsertDeploymentStatusUpdate`, and the RPC response. -/
structure PauseOutcome where
  update : DeploymentStatusUpdate
  eval : Option Evaluation
  resp : DeploymentUpdateResponse
  deriving DecidableEq, Repr

/-- `PauseDeployment` (lines 203-229): pausing targets status `paused` with no
evaluation and an empty response eval id; resuming targets `running` with a
fresh evaluation whose id is echoed in the response.  The write result is the
oracle; on success both response indexes are the returned write index. -/
def PauseDeployment (w : Watcher) (uuid : String)
    (req : DeploymentPauseRequest) (writeResult : Except GoErr Nat) :
    Except GoErr PauseOutcome :=
  let status := if req.Pause then DeploymentStatusPaused else DeploymentStatusRunning
  let desc := if req.Pause then DeploymentStatusDescriptionPaused
              else DeploymentStatusDescriptionRunning
  let eval : Option Evaluation :=
    if req.Pause then none else some (getEval w uuid)
  let evalID := if req.Pause then "" else (getEval w uuid).ID
  let update := getDeploymentStatusUpdate w status desc
  match writeResult with
  | Except.error e => Except.error e
  | Except.ok i =>
    Except.ok
      { update := update
        eval := eval
        resp :=
          { EvalID := evalID, EvalCreateIndex := i, DeploymentModifyIndex := i } }

/-- The three flags computed by the watch loop's allocation scan (line 265). -/
structure ScanFlags where
  createEval : Bool
  failDeployment : Bool
  rollback : Bool
  deriving DecidableEq, Repr

/-- The allocation scan of the watch loop (lines 266-288): skip allocations
with no deployment status or one whose modify index does not exceed
`latest`; otherwise set `createEval`, and for unhealthy allocations set
`failDeployment` and — when the task group has autorevert — `rollback`;
stop early once all three flags are set. -/
def scanLoop (ar : String → Bool) (latest : Nat) :
    List AllocListStub → ScanFlags → ScanFlags
  | [], fl => fl
  | a :: rest, fl =>
    match a.DeploymentStatus with
    | none => scanLoop ar latest rest fl
    | some ds =>
      if ds.ModifyIndex ≤ latest then scanLoop ar latest rest fl
      else
        let fl1 : ScanFlags :=
          { createEval := true
            failDeployment := fl.failDeployment || IsUnhealthy ds
            rollback := fl.rollback || (IsUnhealthy ds && ar a.TaskGroup) }
        if fl1.createEval && fl1.failDeployment && fl1.rollback then fl1
        else scanLoop ar latest rest fl1

/-- The scan started from all-false flags, as each cycle does (line 265). -/
def scanAllocs (ar : String → Bool) (allocs : List AllocListStub)
    (latest : Nat) : ScanFlags :=
  scanLoop ar latest allocs { createEval := false, failDeployment := false, rollback := false }

/-- The oracle inputs consumed by one iteration of `watch` (lines 240-321):
the `getAllocs` result as a function of the minimum index it is called with,
the rate-limiter wait and `Evaluations` read feeding `latestEvalIndex`, the
`GetJobVersions` read feeding `latestStableJob`, and the
`upsertDeploymentStatusUpdate` write result. -/
structure CycleInputs where
  allocsRead : Nat → Except GoErr (List AllocListStub)
  limiterWait : Option GoErr
  evalsRead : Except GoErr JobEvaluationsResponse
  versionsRead : Except GoErr (List Job)
  writeResult : Except GoErr Nat

/-- What one watch-loop iteration did after its reads. -/
inductive CycleAction where
  | noop
  | batchedEvalTrigger
  | failWriteOk (e : Evaluation) (u : DeploymentStatusUpdate) (job : Option Job)
      (index : Nat)
  | failWriteErr (e : Evaluation) (u : DeploymentStatusUpdate) (job : Option Job)
  deriving DecidableEq, Repr

/-- The outcome of one watch-loop iteration: exit on cancellation, a runtime
panic from dereferencing a nil stable-job pointer, or continue with the new
value of `latestEval` and the action taken. -/
inductive WatchStep where
  | exit
  | panicked
  | next (latestEval : Nat) (act : CycleAction)
  deriving DecidableEq, Repr

/-- The value `latestEval` is assigned in step 2 of the cycle (line 254):
the full `(index, error)` result of `latestEvalIndex`; the index component is
assigned even when the read fails, and is then `0`. -/
def cycleWatermark (inp : CycleInputs) : Nat × Option GoErr :=
  latestEvalIndex inp.limiterWait inp.evalsRead

/-- The allocation list the cycle scans: the fetched allocations, or Go's nil
slice (here `[]`) when `getAllocs` returned a non-cancellation error
(lines 244-251 log and fall through). -/
def cycleAllocs (prev : Nat) (inp : CycleInputs) : List AllocListStub :=
  match inp.allocsRead prev with
  | Except.error _ => []
  | Except.ok allocs => allocs

/-- The flags the cycle's scan produces (lines 265-288).  Note that the scan
compares modify indexes against the index component of `cycleWatermark` — the
value `latestEval` holds *after* line 254 reassigned it — never against the
previous iteration's watermark `prev`, which is only used as the minimum
index of the blocking allocation fetch. -/
def cycleScanFlags (w : Watcher) (prev : Nat) (inp : CycleInputs) : ScanFlags :=
  scanAllocs w.autorevert (cycleAllocs prev inp) (cycleWatermark inp).1

/-- One iteration of `watch` (lines 240-321).  `prev` is the value of
`latestEval` entering the iteration; `uuid` the id of the evaluation
`getEval` would mint in the failure path.  Cancellation of either read exits
the loop; a failure decision with rollback resolves the latest stable job and
— exactly as the Go does — formats `j.Version` without a nil check, so a
missing stable job (or a failed, merely logged, version read) is a panic. -/
def watchCycle (w : Watcher) (uuid : String) (prev : Nat) (inp : CycleInputs) :
    WatchStep :=
  match inp.allocsRead prev with
  | Except.error GoErr.canceled => WatchStep.exit
  | _ =>
    match (cycleWatermark inp).2 with
    | some GoErr.canceled => WatchStep.exit
    | _ =>
      let latest := (cycleWatermark inp).1
      let fl := cycleScanFlags w prev inp
      if fl.failDeployment then
        let stable : Option Job :=
          match latestStableJob inp.versionsRead with
          | Except.error _ => none
          | Except.ok j => j
        if fl.rollback then
          match stable with
          | none => WatchStep.panicked
          | some j =>
            let desc := rollbackDesc DeploymentStatusDescriptionFailedAllocations j.Version
            let e := getEval w uuid
            let u := getDeploymentStatusUpdate w DeploymentStatusFailed desc
            match inp.writeResult with
            | Except.error _ => WatchStep.next latest (CycleAction.failWriteErr e u (some j))
            | Except.ok index => WatchStep.next index (CycleAction.failWriteOk e u (some j) index)
        else
          let e := getEval w uuid
          let u := getDeploymentStatusUpdate w DeploymentStatusFailed
            DeploymentStatusDescriptionFailedAllocations
          match inp.writeResult with
          | Except.error _ => WatchStep.next latest (CycleAction.failWriteErr e u none)
          | Except.ok index => WatchStep.next index (CycleAction.failWriteOk e u none index)
      else if fl.createEval then WatchStep.next latest CycleAction.batchedEvalTrigger
      else WatchStep.next latest CycleAction.noop

/-- Abstract state of the evaluation batcher (`outstandingBatch`, line 68,
plus observation counters): `pending` counts deferred evaluation-creation
actions that are scheduled but have not yet run, and `writes` counts
evaluation-creation writes performed. -/
structure BatchState where
  outstandingBatch : Bool
  pending : Nat
  writes : Nat
  deriving DecidableEq, Repr

/-- The batcher state of a fresh watcher: no batch outstanding, nothing
scheduled, nothing written. -/
def batchInit : BatchState := { outstandingBatch := false, pending := 0, writes := 0 }

/-- `createEvalBatched` (lines 351-371): under the lock, if a batch is already
outstanding do nothing; otherwise schedule one deferred action.  Note that the
Go function never assigns `outstandingBatch = true` — the field is only
checked (line 355) and cleared by the deferred action (line 364), with no
assignment to `true` anywhere in the file — so the trigger leaves the flag
unchanged. -/
def createEvalBatched (s : BatchState) : BatchState :=
  if s.outstandingBatch then s
  else { s with pending := s.pending + 1 }

/-- The deferred action scheduled by `createEvalBatched` (lines 359-370),
firing after the 1-second batching window: clear the outstanding flag, then
perform exactly one evaluation-creation write.  Modelled as a single atomic
step consuming one scheduled action. -/
def batchFire (s : BatchState) : BatchState :=
  { outstandingBatch := false, pending := s.pending - 1, writes := s.writes + 1 }

/-- `n` consecutive trigger requests (e.g. within one batching window). -/
def triggerN : Nat → BatchState → BatchState
  | 0, s => s
  | n + 1, s => triggerN n (createEvalBatched s)

/-- A concrete deployment used in witnesses and counterexamples. -/
def dEx : Deployment := { ID := "d1", JobID := "job1" }

/-- A concrete job with one autorevert task group (`web`) and one without
(`db`). -/
def jEx : Job :=
  { ID := "job1", Version := 3, Stable := false, Priority := 50, Typ := "service",
    TaskGroups :=
      [ { Name := "web", Update := some { AutoRevert := true } },
        { Name := "db", Update := none } ] }

/-- The concrete watcher for `dEx` and `jEx`. -/
def wEx : Watcher := newDeploymentWatcher dEx jEx

/-- A job version that is not flagged stable. -/
def jobUnstable : Job :=
  { ID := "job1", Version := 1, Stable := false, Priority := 50, Typ := "service",
    TaskGroups := [] }

/-- A job version flagged stable. -/
def jobStable : Job :=
  { ID := "job1", Version := 2, Stable := true, Priority := 50, Typ := "service",
    TaskGroups := [] }

/-- A healthy allocation of group `web` with deployment-status modify index 7. -/
def allocHealthy7 : AllocListStub :=
  { ID := "a1", TaskGroup := "web",
    DeploymentStatus := some { Healthy := some true, ModifyIndex := 7 } }

/-- An unhealthy allocation of group `web` with modify index 10. -/
def allocUnhealthy10 : AllocListStub :=
  { ID := "a1", TaskGroup := "web",
    DeploymentStatus := some { Healthy := some false, ModifyIndex := 10 } }

/-- Cycle inputs where the allocation `allocHealthy7` (modify index 7) is
fetched while the freshly read latest-evaluation index is 10: new relative to
a previous watermark of 5, but not relative to the fresh index. -/
def cInpC2 : CycleInputs :=
  { allocsRead := fun _ => Except.ok [allocHealthy7]
    limiterWait := none
    evalsRead := Except.ok
      { Evaluations := [{ SnapshotIndex := 10, CreateIndex := 3 }], Index := 42 }
    versionsRead := Except.ok [jobStable]
    writeResult := Except.ok 50 }

/-- Cycle inputs that fail the deployment with rollback while the job's
version history holds no stable version. -/
def cInpC3 : CycleInputs :=
  { allocsRead := fun _ => Except.ok [allocUnhealthy10]
    limiterWait := none
    evalsRead := Except.ok { Evaluations := [], Index := 5 }
    versionsRead := Except.ok [jobUnstable]
    writeResult := Except.ok 50 }

/-- Cycle inputs whose latest-evaluation-index read fails with a
non-cancellation error. -/
def cInpC4 : CycleInputs :=
  { allocsRead := fun _ => Except.ok []
    limiterWait := none
    evalsRead := Except.error (GoErr.failure "store unavailable")
    versionsRead := Except.ok []
    writeResult := Except.ok 99 }

/-- An allocation counts as new for the scan when it has a deployment status
whose modify index strictly exceeds `latest` (the negation of the skip
condition on line 267). -/
def allocNewer (latest : Nat) (a : AllocListStub) : Bool :=
  match a.DeploymentStatus with
  | none => false
  | some ds => latest < ds.ModifyIndex

/-- An allocation with a deployment status that is unhealthy. -/
def allocUnhealthyB (a : AllocListStub) : Bool :=
  match a.DeploymentStatus with
  | none => false
  | some ds => IsUnhealthy ds

/-- The scan loop, early break included, computes each flag as the disjunction
of its incoming value with an existential over the allocation list. -/
theorem scanLoop_char (ar : String → Bool) (latest : Nat)
    (allocs : List AllocListStub) : ∀ fl : ScanFlags,
    scanLoop ar latest allocs fl =
      { createEval := fl.createEval || allocs.any (allocNewer latest)
        failDeployment := fl.failDeployment ||
          allocs.any (fun a => allocNewer latest a && allocUnhealthyB a)
        rollback := fl.rollback ||
          allocs.any (fun a => allocNewer latest a && allocUnhealthyB a && ar a.TaskGroup) } := by
  induction allocs with
  | nil => intro fl; simp [scanLoop]
  | cons a rest ih =>
    intro fl
    cases h : a.DeploymentStatus with
    | none => simp [scanLoop, h, allocNewer, allocUnhealthyB, ih]
    | some ds =>
      by_cases hle : ds.ModifyIndex ≤ latest
      · have hlt : ¬ latest < ds.ModifyIndex := Nat.not_lt.mpr hle
        simp [scanLoop, h, allocNewer, allocUnhealthyB, hle, hlt, ih]
      · have hlt : latest < ds.ModifyIndex := Nat.not_le.mp hle
        cases hu : IsUnhealthy ds <;> cases har : ar a.TaskGroup <;>
          cases hf : fl.failDeployment <;> cases hr : fl.rollback <;>
            simp [scanLoop, h, allocNewer, allocUnhealthyB, hle, hlt, hu, har,
              hf, hr, ih, Bool.or_assoc]

/-- The `SetAllocHealth` scan stops at the first fetched allocation that is
both named unhealthy in the request and in an autorevert task group; the
result depends only on whether such an allocation exists. -/
theorem sahScan_char (ar : String → Bool) (unhealthy : List String)
    (versionsRead : Except GoErr (List Job)) (allocs : List AllocListStub) :
    sahScan ar unhealthy versionsRead allocs =
      match allocs.find? (fun a => unhealthy.contains a.ID && ar a.TaskGroup) with
      | none => Except.ok (DeploymentStatusDescriptionFailedAllocations, none)
      | some _ =>
        match latestStableJob versionsRead with
        | Except.error e => Except.error (SAHFail.goError e)
        | Except.ok none => Except.error SAHFail.nilPanic
        | Except.ok (some j) =>
          Except.ok
            (rollbackDesc DeploymentStatusDescriptionFailedAllocations j.Version,
             some j) := by
  induction allocs with
  | nil => simp [sahScan]
  | cons a rest ih =>
    by_cases hc : a.ID ∈ unhealthy <;> by_cases har : ar a.TaskGroup = true <;>
      simp [sahScan, List.find?_cons, hc, har, ih]

/-- A successful return of the `getAllocs` loop comes from a response whose
index strictly exceeds the requested minimum — the initial one or one
delivered by a successful query step. -/
theorem getAllocsLoop_ok (index : Nat) (steps : List FetchStep) :
    ∀ (resp : AllocListResponse) (allocs : List AllocListStub),
    getAllocsLoop index steps resp = some (Except.ok allocs) →
      (index < resp.Index ∧ allocs = resp.Allocations) ∨
      ∃ r, FetchStep.queryOk r ∈ steps ∧ index < r.Index ∧ allocs = r.Allocations := by
  induction steps with
  | nil =>
    intro resp allocs h
    by_cases hi : index < resp.Index
    · simp [getAllocsLoop, hi] at h
      exact Or.inl ⟨hi, h.symm⟩
    · simp [getAllocsLoop, hi] at h
  | cons s rest ih =>
    intro resp allocs h
    by_cases hi : index < resp.Index
    · cases s <;> (simp [getAllocsLoop, hi] at h; exact Or.inl ⟨hi, h.symm⟩)
    · cases s with
      | waitErr e => simp [getAllocsLoop, hi] at h
      | queryErr e => simp [getAllocsLoop, hi] at h
      | queryOk r =>
        rw [getAllocsLoop, if_neg hi] at h
        rcases ih r allocs h with ⟨h1, h2⟩ | ⟨r1, hm, h1, h2⟩
        · exact Or.inr ⟨r, by simp, h1, h2⟩
        · exact Or.inr ⟨r1, by simp [hm], h1, h2⟩

/-- An error return of the `getAllocs` loop comes from a failed rate-limiter
wait or a failed query in the step sequence. -/
theorem getAllocsLoop_error (index : Nat) (steps : List FetchStep) :
    ∀ (resp : AllocListResponse) (e : GoErr),
    getAllocsLoop index steps resp = some (Except.error e) →
      FetchStep.waitErr e ∈ steps ∨ FetchStep.queryErr e ∈ steps := by
  induction steps with
  | nil =>
    intro resp e h
    by_cases hi : index < resp.Index <;> simp [getAllocsLoop, hi] at h
  | cons s rest ih =>
    intro resp e h
    by_cases hi : index < resp.Index
    · cases s <;> simp [getAllocsLoop, hi] at h
    · cases s with
      | waitErr e1 =>
        simp [getAllocsLoop, hi] at h
        simp [h]
      | queryErr e1 =>
        simp [getAllocsLoop, hi] at h
        simp [h]
      | queryOk r =>
        rw [getAllocsLoop, if_neg hi] at h
        rcases ih r e h with h1 | h1
        · exact Or.inl (by simp [h1])
        · exact Or.inr (by simp [h1])

/-- While every response stays at or below the requested minimum index and no
error occurs, the `getAllocs` loop does not return. -/
theorem getAllocsLoop_none (index : Nat) (steps : List FetchStep) :
    ∀ resp : AllocListResponse,
    resp.Index ≤ index →
    (∀ r, FetchStep.queryOk r ∈ steps → r.Index ≤ index) →
    (∀ e, FetchStep.waitErr e ∉ steps) →
    (∀ e, FetchStep.queryErr e ∉ steps) →
    getAllocsLoop index steps resp = none := by
  induction steps with
  | nil =>
    intro resp hle _ _ _
    simp [getAllocsLoop, Nat.not_lt.mpr hle]
  | cons s rest ih =>
    intro resp hle hq hw he
    cases s with
    | waitErr e => exact absurd (by simp) (hw e)
    | queryErr e => exact absurd (by simp) (he e)
    | queryOk r =>
      rw [getAllocsLoop, if_neg (Nat.not_lt.mpr hle)]
      exact ih r (hq r (by simp))
        (fun r1 hm => hq r1 (by simp [hm]))
        (fun e hm => hw e (by simp [hm]))
        (fun e hm => he e (by simp [hm]))

/-- With the outstanding flag clear — which no code path ever changes — every
trigger request schedules one more deferred action. -/
theorem triggerN_flag_clear (n : Nat) : ∀ p wr : Nat,
    triggerN n { outstandingBatch := false, pending := p, writes := wr } =
      { outstandingBatch := false, pending := p + n, writes := wr } := by
  induction n with
  | zero => intro p wr; rfl
  | succ n ih =>
    intro p wr
    have h1 : createEvalBatched { outstandingBatch := false, pending := p, writes := wr } =
        { outstandingBatch := false, pending := p + 1, writes := wr } := rfl
    rw [triggerN, h1, ih]
    have h2 : p + 1 + n = p + (n + 1) := by omega
    rw [h2]

/-- A generated evaluation id is never the empty string. -/
theorem GenerateUUID_ne_empty (n : Nat) : GenerateUUID n ≠ "" := by
  intro h
  have h2 := congrArg String.length h
  simp [GenerateUUID, String.length_append] at h2
  exact absurd h2.1 (by decide)

/-- Cycle inputs failing the deployment with rollback while the stable-job
lookup itself fails with a non-cancellation error. -/
def cInpC3b : CycleInputs :=
  { allocsRead := fun _ => Except.ok [allocUnhealthy10]
    limiterWait := none
    evalsRead := Except.ok { Evaluations := [], Index := 5 }
    versionsRead := Except.error (GoErr.failure "leader lost")
    writeResult := Except.ok 50 }

/-- A health request reporting allocation `a1` unhealthy. -/
def reqC6 : DeploymentAllocHealthRequest :=
  { DeploymentID := "d1", HealthyAllocationIDs := [],
    UnhealthyAllocationIDs := ["a1"] }

/-- A health request reporting an id that matches no fetched allocation. -/
def reqC10 : DeploymentAllocHealthRequest :=
  { DeploymentID := "d1", HealthyAllocationIDs := [],
    UnhealthyAllocationIDs := ["zz"] }

/-- The apply request `SetAllocHealth` builds for `reqC6` when the fetched
allocation `allocUnhealthy10` is in the autorevert group and `jobStable`
(version 2) is the stable version. -/
def areqC6 : ApplyDeploymentAllocHealthRequest :=
  { request := reqC6
    Eval := getEval wEx "u1"
    DeploymentUpdate := some (getDeploymentStatusUpdate wEx DeploymentStatusFailed
      (rollbackDesc DeploymentStatusDescriptionFailedAllocations 2))
    Job := some jobStable }

/-- Two query steps for the blocking allocation fetch: one response still at
index 2, then one past the minimum at index 9. -/
def stepsEx : List FetchStep :=
  [FetchStep.queryOk { Allocations := [], Index := 2 },
   FetchStep.queryOk { Allocations := [allocHealthy7], Index := 9 }]

/-- Claim C1 (code bug): a trigger request never changes the outstanding
flag — the Go source contains no `outstandingBatch = true` assignment, so
from the initial (flag-clear) state the guard at line 355 never fires:
`n` trigger requests within one batching window each schedule their own
deferred action (`n` pending at once), and when those actions fire the
watcher performs `n` evaluation-creation writes, not one.  Concretely, two
triggers from a fresh watcher leave the flag clear with two pending deferred
actions, and firing both yields two writes. -/
theorem claim_C1_batching_guard_dead :
    (∀ s : BatchState, (createEvalBatched s).outstandingBatch = s.outstandingBatch)
  ∧ (∀ n : Nat, triggerN n batchInit =
      { outstandingBatch := false, pending := n, writes := 0 })
  ∧ createEvalBatched (createEvalBatched batchInit) =
      { outstandingBatch := false, pending := 2, writes := 0 }
  ∧ batchFire (batchFire (triggerN 2 batchInit)) =
      { outstandingBatch := false, pending := 0, writes := 2 } := by
  refine ⟨?_, ?_, rfl, rfl⟩
  · intro s
    by_cases hb : s.outstandingBatch <;> simp [createEvalBatched, hb]
  · intro n
    have h := triggerN_flag_clear n 0 0
    simpa [batchInit] using h

/-- Witness for C1: the trigger leaves a fresh watcher's flag clear, and three
triggers in one window schedule three deferred actions. -/
theorem claim_C1_batching_guard_dead_witness :
    (createEvalBatched batchInit).outstandingBatch = batchInit.outstandingBatch
  ∧ triggerN 3 batchInit =
      { outstandingBatch := false, pending := 3, writes := 0 } :=
  ⟨claim_C1_batching_guard_dead.1 batchInit,
   claim_C1_batching_guard_dead.2.1 3⟩

/-- Claim C2 (amended): the cycle's allocation scan sets its flags for exactly
those allocations whose deployment-status modify index exceeds the freshly
fetched latest-evaluation index of step 2 — the index component of
`cycleWatermark` — not the previous cycle's watermark `prev`, which only
chooses the blocking fetch's minimum index. -/
theorem claim_C2_scan_uses_fresh_watermark (w : Watcher) (prev : Nat)
    (inp : CycleInputs) (allocs : List AllocListStub)
    (ha : inp.allocsRead prev = Except.ok allocs) :
    cycleScanFlags w prev inp =
      { createEval := allocs.any (allocNewer (cycleWatermark inp).1)
        failDeployment := allocs.any
          (fun a => allocNewer (cycleWatermark inp).1 a && allocUnhealthyB a)
        rollback := allocs.any
          (fun a => allocNewer (cycleWatermark inp).1 a && allocUnhealthyB a &&
            w.autorevert a.TaskGroup) } := by
  have h2 : cycleAllocs prev inp = allocs := by simp [cycleAllocs, ha]
  simp [cycleScanFlags, scanAllocs, h2, scanLoop_char]

/-- Witness for the amended C2 at the concrete cycle `cInpC2`. -/
theorem claim_C2_scan_uses_fresh_watermark_witness :
    cycleScanFlags wEx 5 cInpC2 =
      { createEval := [allocHealthy7].any (allocNewer (cycleWatermark cInpC2).1)
        failDeployment := [allocHealthy7].any
          (fun a => allocNewer (cycleWatermark cInpC2).1 a && allocUnhealthyB a)
        rollback := [allocHealthy7].any
          (fun a => allocNewer (cycleWatermark cInpC2).1 a && allocUnhealthyB a &&
            wEx.autorevert a.TaskGroup) } :=
  claim_C2_scan_uses_fresh_watermark wEx 5 cInpC2 [allocHealthy7] rfl

/-- Counterexample to C2 as stated: entering the cycle with watermark 5, the
fetched allocation has modify index 7 and the fresh latest-evaluation index
is 10; the claim demands the evaluation-needed flag (7 exceeds the previous
watermark 5), but the scan — comparing against the fresh index 10 — sets no
flag, and the cycle takes no action. -/
theorem claim_C2_counterexample :
    cycleScanFlags wEx 5 cInpC2 =
      { createEval := false, failDeployment := false, rollback := false }
  ∧ scanAllocs wEx.autorevert [allocHealthy7] 5 =
      { createEval := true, failDeployment := false, rollback := false }
  ∧ watchCycle wEx "u1" 5 cInpC2 = WatchStep.next 10 CycleAction.noop :=
  ⟨rfl, rfl, rfl⟩

/-- Claim C3 (code bug): in the failure path with rollback needed, when no
stable job version exists (`cInpC3`) or the stable-job lookup fails
(`cInpC3b`), the Go code does not issue the base-description failure write —
it formats `j.Version` from the nil stable-job pointer and panics, so the
cycle performs no write at all. -/
theorem claim_C3_rollback_without_stable_panics :
    watchCycle wEx "u1" 5 cInpC3 = WatchStep.panicked
  ∧ watchCycle wEx "u1" 5 cInpC3b = WatchStep.panicked :=
  ⟨rfl, rfl⟩

/-- Claim C4 (amended): each iteration assigns `latestEval` the index
component of the `latestEvalIndex` result — the fetched index on a successful
read but 0 on a failed one — so the watermark is not non-decreasing: an
iteration whose evaluation-index read fails with a non-cancellation error
resets it to 0 and continues. -/
theorem claim_C4_watermark_reset (w : Watcher) (uuid : String) (prev : Nat)
    (inp : CycleInputs) :
    (∀ e, inp.limiterWait = none → inp.evalsRead = Except.error e →
      (cycleWatermark inp).1 = 0)
  ∧ (∀ r, inp.limiterWait = none → inp.evalsRead = Except.ok r →
      (cycleWatermark inp).1 = latestEvalValue r)
  ∧ (∀ msg allocs, inp.allocsRead prev = Except.ok allocs →
      inp.limiterWait = none → inp.evalsRead = Except.error (GoErr.failure msg) →
      (cycleScanFlags w prev inp).failDeployment = false →
      (cycleScanFlags w prev inp).createEval = false →
      watchCycle w uuid prev inp = WatchStep.next 0 CycleAction.noop) := by
  refine ⟨?_, ?_, ?_⟩
  · intro e hw he
    simp [cycleWatermark, latestEvalIndex, hw, he]
  · intro r hw he
    simp [cycleWatermark, latestEvalIndex, hw, he]
  · intro msg allocs ha hw he hf hc
    have hwm : cycleWatermark inp = (0, some (GoErr.failure msg)) := by
      simp [cycleWatermark, latestEvalIndex, hw, he]
    simp [watchCycle, ha, hwm, hf, hc]

/-- Witness for the amended C4 at the concrete cycle `cInpC4`. -/
theorem claim_C4_watermark_reset_witness :
    (cycleWatermark cInpC4).1 = 0
  ∧ watchCycle wEx "u1" 5 cInpC4 = WatchStep.next 0 CycleAction.noop :=
  ⟨(claim_C4_watermark_reset wEx "u1" 5 cInpC4).1
      (GoErr.failure "store unavailable") rfl rfl,
   (claim_C4_watermark_reset wEx "u1" 5 cInpC4).2.2
      "store unavailable" [] rfl rfl rfl rfl rfl⟩

/-- Counterexample to C4 as stated: an iteration entered with watermark 5
whose latest-evaluation-index read fails (not by cancellation) assigns
`latestEval` the value 0, strictly smaller than 5. -/
theorem claim_C4_counterexample :
    watchCycle wEx "u1" 5 cInpC4 = WatchStep.next 0 CycleAction.noop
  ∧ (0 : Nat) < 5 :=
  ⟨rfl, by decide⟩

/-- Claim C5 (code bug): `SetAllocHealth` is not total at its interface —
reporting unhealthy an allocation whose task group has autorevert enabled
while no job version in the history is flagged stable makes the Go code read
`j.Version` from the nil stable-job pointer: a runtime panic instead of a
response or error return. -/
theorem claim_C5_setAllocHealth_nil_panic :
    SetAllocHealth wEx "u1" reqC6 (Except.ok [allocUnhealthy10])
      (Except.ok [jobUnstable]) (Except.ok 7) = Except.error SAHFail.nilPanic :=
  rfl

/-- Claim C6: with a non-empty unhealthy list, `SetAllocHealth` attaches a
status update to `failed`; its scan stops at the first fetched allocation
that is both named unhealthy in the request and in an autorevert task group,
and only such an allocation contributes the rollback job and the
rolling-back description; when no fetched allocation qualifies, the update
carries the base description and no rollback job is attached. -/
theorem claim_C6_setAllocHealth_scan (w : Watcher) (uuid : String)
    (req : DeploymentAllocHealthRequest) (allocs : List AllocListStub)
    (versions : List Job) (hne : req.UnhealthyAllocationIDs ≠ []) :
    ∀ areq, setAllocHealthAreq w uuid req (Except.ok allocs) (Except.ok versions)
        = Except.ok areq →
      areq.DeploymentUpdate.map (fun u => u.Status) = some DeploymentStatusFailed
    ∧ (match allocs.find? (fun a =>
          req.UnhealthyAllocationIDs.contains a.ID && w.autorevert a.TaskGroup) with
       | none =>
         areq.Job = none ∧
         areq.DeploymentUpdate = some (getDeploymentStatusUpdate w
           DeploymentStatusFailed DeploymentStatusDescriptionFailedAllocations)
       | some _ =>
         ∃ j, versions.find? (fun v => v.Stable) = some j ∧ areq.Job = some j ∧
           areq.DeploymentUpdate = some (getDeploymentStatusUpdate w
             DeploymentStatusFailed
             (rollbackDesc DeploymentStatusDescriptionFailedAllocations j.Version))) := by
  intro areq h
  rw [setAllocHealthAreq, if_neg hne] at h
  rw [sahScan_char] at h
  cases hf : allocs.find? (fun a =>
      req.UnhealthyAllocationIDs.contains a.ID && w.autorevert a.TaskGroup) with
  | none =>
    rw [hf] at h
    simp at h
    simp [← h, hf, getDeploymentStatusUpdate]
  | some a =>
    rw [hf] at h
    cases hs : versions.find? (fun v => v.Stable) with
    | none => simp [latestStableJob, hs] at h
    | some j =>
      simp [latestStableJob, hs] at h
      simp [← h, hf, hs, getDeploymentStatusUpdate]

/-- Witness for C6 at a concrete autorevert failure with stable version 2. -/
theorem claim_C6_setAllocHealth_scan_witness :
    areqC6.DeploymentUpdate.map (fun u => u.Status) = some DeploymentStatusFailed :=
  (claim_C6_setAllocHealth_scan wEx "u1" reqC6 [allocUnhealthy10] [jobStable]
    (by decide) areqC6 rfl).1

/-- Claim C7: for every successful read of the job's evaluations,
`latestEvalIndex` returns the store's current index when the list is empty,
else the newest evaluation's snapshot index when non-zero, else its create
index. -/
theorem claim_C7_latestEvalIndex (idx snap cidx : Nat) (rest : List EvalInfo) :
    latestEvalIndex none (Except.ok { Evaluations := [], Index := idx }) = (idx, none)
  ∧ (snap ≠ 0 →
      latestEvalIndex none (Except.ok
        { Evaluations := { SnapshotIndex := snap, CreateIndex := cidx } :: rest,
          Index := idx }) = (snap, none))
  ∧ latestEvalIndex none (Except.ok
      { Evaluations := { SnapshotIndex := 0, CreateIndex := cidx } :: rest,
        Index := idx }) = (cidx, none) := by
  refine ⟨rfl, ?_, rfl⟩
  intro hs
  simp [latestEvalIndex, latestEvalValue, hs]

/-- Witness for C7 with a newest evaluation of snapshot index 10. -/
theorem claim_C7_latestEvalIndex_witness :
    latestEvalIndex none (Except.ok
      { Evaluations := [{ SnapshotIndex := 10, CreateIndex := 3 }], Index := 42 })
      = (10, none) :=
  (claim_C7_latestEvalIndex 42 10 3 []).2.1 (by decide)

/-- Claim C8: pausing issues a status update to `paused` with no evaluation
and an empty evaluation id in the response; resuming issues a status update
to `running` with a fresh evaluation whose non-empty id the response echoes;
in both cases both response indexes are the write's returned index. -/
theorem claim_C8_pause (w : Watcher) (n i : Nat) (dep : String) :
    (∃ out, PauseDeployment w (GenerateUUID n)
        { DeploymentID := dep, Pause := true } (Except.ok i) = Except.ok out
      ∧ out.update.Status = DeploymentStatusPaused ∧ out.eval = none
      ∧ out.resp.EvalID = "" ∧ out.resp.EvalCreateIndex = i
      ∧ out.resp.DeploymentModifyIndex = i)
  ∧ (∃ out, PauseDeployment w (GenerateUUID n)
        { DeploymentID := dep, Pause := false } (Except.ok i) = Except.ok out
      ∧ out.update.Status = DeploymentStatusRunning
      ∧ (∃ e, out.eval = some e ∧ out.resp.EvalID = e.ID ∧ e.ID ≠ "")
      ∧ out.resp.EvalCreateIndex = i ∧ out.resp.DeploymentModifyIndex = i) := by
  constructor
  · exact ⟨_, rfl, rfl, rfl, rfl, rfl, rfl⟩
  · exact ⟨_, rfl, rfl, ⟨getEval w (GenerateUUID n), rfl, rfl,
      GenerateUUID_ne_empty n⟩, rfl, rfl⟩

/-- Witness for C8: pausing deployment `d1` with write index 7. -/
theorem claim_C8_pause_witness :
    ∃ out, PauseDeployment wEx (GenerateUUID 0)
        { DeploymentID := "d1", Pause := true } (Except.ok 7) = Except.ok out
      ∧ out.update.Status = DeploymentStatusPaused ∧ out.eval = none
      ∧ out.resp.EvalID = "" ∧ out.resp.EvalCreateIndex = 7
      ∧ out.resp.DeploymentModifyIndex = 7 :=
  (claim_C8_pause wEx 0 7 "d1").1

/-- Claim C9: the blocking allocation fetch returns allocations successfully
only from a query response whose index strictly exceeds the requested
minimum; an error return comes only from a failed rate-limiter wait or a
failed query; and while every response stays at or below the minimum and no
error occurs, the loop keeps repeating. -/
theorem claim_C9_getAllocs (index : Nat) (steps : List FetchStep) :
    (∀ allocs, getAllocs index steps = some (Except.ok allocs) →
      ∃ r, FetchStep.queryOk r ∈ steps ∧ index < r.Index ∧ allocs = r.Allocations)
  ∧ (∀ e, getAllocs index steps = some (Except.error e) →
      FetchStep.waitErr e ∈ steps ∨ FetchStep.queryErr e ∈ steps)
  ∧ ((∀ r, FetchStep.queryOk r ∈ steps → r.Index ≤ index) →
     (∀ e, FetchStep.waitErr e ∉ steps) →
     (∀ e, FetchStep.queryErr e ∉ steps) →
     getAllocs index steps = none) := by
  refine ⟨?_, ?_, ?_⟩
  · intro allocs h
    rcases getAllocsLoop_ok index steps _ allocs h with ⟨h1, _⟩ | h1
    · exact absurd h1 (Nat.not_lt_zero index)
    · exact h1
  · intro e h
    exact getAllocsLoop_error index steps _ e h
  · intro hq hw he
    exact getAllocsLoop_none index steps _ (Nat.zero_le index) hq hw he

/-- Witness for C9: with a minimum index of 3, the fetch skips the response
at index 2 and returns the allocations of the response at index 9. -/
theorem claim_C9_getAllocs_witness :
    ∃ r, FetchStep.queryOk r ∈ stepsEx ∧ 3 < r.Index ∧
      [allocHealthy7] = r.Allocations :=
  (claim_C9_getAllocs 3 stepsEx).1 [allocHealthy7] rfl

/-- Claim C10: with a non-empty unhealthy id list, every apply request
`SetAllocHealth` builds carries a status update to `failed`, and when none of
the reported ids matches a fetched allocation, the update carries exactly the
base description with no rollback job — the failed status depends only on
the request. -/
theorem claim_C10_failed_from_request_only (w : Watcher) (uuid : String)
    (req : DeploymentAllocHealthRequest) (versions : List Job)
    (hne : req.UnhealthyAllocationIDs ≠ []) :
    (∀ allocs areq,
      setAllocHealthAreq w uuid req (Except.ok allocs) (Except.ok versions)
        = Except.ok areq →
      ∃ u, areq.DeploymentUpdate = some u ∧ u.Status = DeploymentStatusFailed)
  ∧ (∀ allocs, (∀ a ∈ allocs, req.UnhealthyAllocationIDs.contains a.ID = false) →
      setAllocHealthAreq w uuid req (Except.ok allocs) (Except.ok versions) =
        Except.ok
          { request := req
            Eval := getEval w uuid
            DeploymentUpdate := some (getDeploymentStatusUpdate w
              DeploymentStatusFailed DeploymentStatusDescriptionFailedAllocations)
            Job := none }) := by
  constructor
  · intro allocs areq h
    rw [setAllocHealthAreq, if_neg hne] at h
    rw [sahScan_char] at h
    cases hf : allocs.find? (fun a =>
        req.UnhealthyAllocationIDs.contains a.ID && w.autorevert a.TaskGroup) with
    | none =>
      rw [hf] at h
      simp at h
      refine ⟨getDeploymentStatusUpdate w DeploymentStatusFailed
        DeploymentStatusDescriptionFailedAllocations, ?_, rfl⟩
      simp [← h]
    | some a =>
      rw [hf] at h
      cases hs : versions.find? (fun v => v.Stable) with
      | none => simp [latestStableJob, hs] at h
      | some j =>
        simp [latestStableJob, hs] at h
        refine ⟨getDeploymentStatusUpdate w DeploymentStatusFailed
          (rollbackDesc DeploymentStatusDescriptionFailedAllocations j.Version), ?_, rfl⟩
        simp [← h]
  · intro allocs hnm
    have hf : allocs.find? (fun a =>
        req.UnhealthyAllocationIDs.contains a.ID && w.autorevert a.TaskGroup) = none := by
      rw [List.find?_eq_none]
      intro a ha
      have h1 := hnm a ha
      simp at h1 ⊢
      intro hm
      exact absurd hm h1
    rw [setAllocHealthAreq, if_neg hne]
    rw [sahScan_char, hf]

/-- Witness for C10: a report of id `zz` matching no fetched allocation still
fails the deployment with the base description and no rollback job. -/
theorem claim_C10_failed_from_request_only_witness :
    setAllocHealthAreq wEx "u2" reqC10 (Except.ok [allocHealthy7])
      (Except.ok []) =
      Except.ok
        { request := reqC10
          Eval := getEval wEx "u2"
          DeploymentUpdate := some (getDeploymentStatusUpdate wEx
            DeploymentStatusFailed DeploymentStatusDescriptionFailedAllocations)
          Job := none } :=
  (claim_C10_failed_from_request_only wEx "u2" reqC10 [] (by decide)).2
    [allocHealthy7] (by decide)

end DeploymentWatcher
